import Mathlib

/-!
Verification of the AgentRAG.io frontend agent layer and of the execution
engine described in its design document.

The repository's source under `src/` contains the frontend page
`frontend/src/pages/Agents.jsx` (agent catalogue, creation form validation
and the execute modal) and the `MarkdownMessage` streaming renderer.  The
backend Execution Orchestrator, Tool Protocol Client and Event Stream are
described by the design document only; where a claim is about those, the
definitions below are modelled from the spec and say so in their doc
comments.

JavaScript values that flow through the frontend are modelled by the
inductive `JVal`; `Option JVal` stands for a possibly-`undefined` slot.
-/

/-- A JSON-compatible JavaScript value as it appears in the frontend state.
Numbers are modelled as rationals (the file only manipulates integral and
decimal literals).  `undefined` is modelled by `Option JVal = none` at use
sites. -/
inductive JVal where
  | str : String → JVal
  | num : ℚ → JVal
  | bool : Bool → JVal
  | arr : List JVal → JVal
  | obj : List (String × JVal) → JVal

/-- JavaScript truthiness test on a possibly-undefined value:
`undefined`, the empty string, `false` and `0` are falsy (the sources never
put `null` or `NaN` into these slots). -/
def jsFalsy : Option JVal → Bool
  | none => true
  | some (JVal.str s) => s = ""
  | some (JVal.num q) => q = 0
  | some (JVal.bool b) => !b
  | some (JVal.arr _) => false
  | some (JVal.obj _) => false

/-- Member lookup `obj?.[key]` on a `JVal`: defined on objects, `undefined`
on anything else (the frontend never path-walks through non-objects). -/
def jsGet : Option JVal → String → Option JVal
  | some (JVal.obj fields), key => (fields.find? (fun f => f.1 = key)).map Prod.snd
  | _, _ => none

/-- `field.split('.').reduce((obj, key) => obj?.[key], start)` from
`validateForm` in Agents.jsx: walk a dotted path down an object. -/
def jsGetPath (start : Option JVal) : List String → Option JVal
  | [] => start
  | key :: rest => jsGetPath (jsGet start key) rest

/-- JavaScript `s.trim()`: strip leading and trailing whitespace (the
frontend only ever holds ASCII whitespace in these fields). -/
def jsTrim (s : String) : String :=
  String.mk ((s.data.dropWhile Char.isWhitespace).reverse.dropWhile Char.isWhitespace).reverse

/-- Accumulator loop of `jsSplit`. -/
def jsSplitAux (sep : Char) : List Char → List Char → List String
  | [], acc => [String.mk acc.reverse]
  | c :: rest, acc =>
      if c = sep then String.mk acc.reverse :: jsSplitAux sep rest []
      else jsSplitAux sep rest (c :: acc)

/-- JavaScript `s.split(sep)` for a one-character separator: splitting the
empty string yields `[""]`, exactly as in JavaScript. -/
def jsSplit (sep : Char) (s : String) : List String :=
  jsSplitAux sep s.data []

/-- JavaScript `s.startsWith(p)`. -/
def jsStartsWith (s p : String) : Bool :=
  p.data.isPrefixOf s.data

/-- An LLM provider entry as returned by `/api/providers/`; the frontend
only reads its `name`. -/
structure Provider where
  name : String
deriving Repr, DecidableEq

/-- The JavaScript idiom `providers[0]?.name || 'ollama'` used by every
`defaultConfig` in Agents.jsx. -/
def firstProviderName (providers : List Provider) : String :=
  match providers with
  | [] => "ollama"
  | p :: _ => if p.name = "" then "ollama" else p.name

/-- The `type` of an execute-modal field in Agents.jsx
(`text`, `textarea`, `checkbox`, `select`, `number`). -/
inductive FieldType where
  | text | textarea | checkbox | select | number
deriving Repr, DecidableEq

/-- One entry of an agent type's `executeFields` list in Agents.jsx.
Only the members the logic reads are kept (`options` and `placeholder`
are render-only). -/
structure ExecField where
  name : String
  label : String
  type : FieldType
  required : Bool := false
  defaultValue : Option JVal := none

/-- One entry of the `AGENT_TYPES` configuration object in Agents.jsx.
`icon`, `IconComponent` and `color` are render-only and omitted. -/
structure AgentTypeInfo where
  name : String
  description : String
  defaultConfig : List Provider → JVal
  mcpConfig : JVal
  requiredFields : List String
  executeFields : List ExecField

/-- The `branch_code_review` entry of `AGENT_TYPES`. -/
def branch_code_review_info : AgentTypeInfo :=
  { name := "Code Review Agent"
    description := "Analyse automatique de code sur branches Git avec suggestions de corrections"
    defaultConfig := fun providers => JVal.obj
      [ ("mcp_servers", JVal.arr [JVal.str "github"])
      , ("use_llm", JVal.bool true)
      , ("llm_provider", JVal.str (firstProviderName providers))
      , ("llm_model", JVal.str "codestral:22b")
      , ("llm_temperature", JVal.num 0.3)
      , ("review_focus", JVal.str "security")
      , ("auto_fix", JVal.bool true)
      , ("auto_create_pr", JVal.bool true) ]
    mcpConfig := JVal.obj [("github", JVal.obj [("token", JVal.str ""), ("repo", JVal.str "")])]
    requiredFields := ["github.token", "github.repo"]
    executeFields :=
      [ { name := "branch", label := "Branch Name", type := FieldType.text, required := true } ] }

/-- The `code_generator` entry of `AGENT_TYPES`. -/
def code_generator_info : AgentTypeInfo :=
  { name := "Code Generator Agent"
    description := "Génération de code assistée par IA avec RAG, tests et linting automatiques"
    defaultConfig := fun providers => JVal.obj
      [ ("mcp_servers", JVal.arr [JVal.str "github", JVal.str "linter"])
      , ("llm_provider", JVal.str (firstProviderName providers))
      , ("llm_model", JVal.str "codestral:22b")
      , ("llm_temperature", JVal.num 0.2)
      , ("target_branch", JVal.str "ai-feature")
      , ("base_branch", JVal.str "main")
      , ("auto_test", JVal.bool true)
      , ("auto_lint", JVal.bool true)
      , ("auto_commit", JVal.bool true)
      , ("auto_create_pr", JVal.bool false) ]
    mcpConfig := JVal.obj [("github", JVal.obj [("token", JVal.str ""), ("repo", JVal.str "")])]
    requiredFields := ["github.token", "github.repo"]
    executeFields :=
      [ { name := "prompt", label := "Code Generation Prompt", type := FieldType.textarea, required := true }
      , { name := "create_new_files", label := "Create New Files", type := FieldType.checkbox,
          defaultValue := some (JVal.bool true) }
      , { name := "test_mode", label := "Test Mode", type := FieldType.checkbox,
          defaultValue := some (JVal.bool true) } ] }

/-- The `legal_fiscal` entry of `AGENT_TYPES`. -/
def legal_fiscal_info : AgentTypeInfo :=
  { name := "Legal & Fiscal Expert"
    description := "Expert juridique et fiscal avec RAG sur documents légaux (contrats, factures, RGPD)"
    defaultConfig := fun providers => JVal.obj
      [ ("llm_provider", JVal.str (firstProviderName providers))
      , ("llm_model", JVal.str "mistrallite:latest")
      , ("llm_temperature", JVal.num 0.3)
      , ("legal_config", JVal.obj
          [ ("domains", JVal.arr [JVal.str "fiscal", JVal.str "social", JVal.str "commercial"])
          , ("auto_summary", JVal.bool true)
          , ("extract_entities", JVal.bool true) ]) ]
    mcpConfig := JVal.obj []
    requiredFields := []
    executeFields :=
      [ { name := "mode", label := "Analysis Mode", type := FieldType.select, required := true }
      , { name := "query", label := "Query/Instructions", type := FieldType.textarea, required := true }
      , { name := "documents", label := "Document Paths (optional)", type := FieldType.text } ] }

/-- The `accounting_finance` entry of `AGENT_TYPES`. -/
def accounting_finance_info : AgentTypeInfo :=
  { name := "Accounting Expert"
    description := "Expert comptable et financier - analyse, conseil stratégique, écritures comptables"
    defaultConfig := fun providers => JVal.obj
      [ ("llm_provider", JVal.str (firstProviderName providers))
      , ("llm_model", JVal.str "mistrallite:latest")
      , ("llm_temperature", JVal.num 0.3)
      , ("accounting_config", JVal.obj
          [ ("domains", JVal.arr [JVal.str "comptabilite", JVal.str "social"])
          , ("auto_summary", JVal.bool true)
          , ("extract_entities", JVal.bool true) ]) ]
    mcpConfig := JVal.obj []
    requiredFields := []
    executeFields :=
      [ { name := "mode", label := "Mode", type := FieldType.select, required := true }
      , { name := "query", label := "Query/Instructions", type := FieldType.textarea, required := true } ] }

/-- The `travel_expert` entry of `AGENT_TYPES`. -/
def travel_expert_info : AgentTypeInfo :=
  { name := "Travel Expert"
    description := "Planification de voyages personnalisée avec recherche web intégrée"
    defaultConfig := fun providers => JVal.obj
      [ ("llm_provider", JVal.str (firstProviderName providers))
      , ("llm_model", JVal.str "mistrallite:latest")
      , ("llm_temperature", JVal.num 0.4)
      , ("travel_config", JVal.obj
          [ ("search_preferences", JVal.obj
              [ ("budget_aware", JVal.bool true)
              , ("eco_friendly", JVal.bool true)
              , ("accessibility", JVal.bool false) ]) ]) ]
    mcpConfig := JVal.obj []
    requiredFields := []
    executeFields :=
      [ { name := "mode", label := "Mode", type := FieldType.select, required := true,
          defaultValue := some (JVal.str "itinerary_planning") }
      , { name := "query", label := "Travel Request", type := FieldType.textarea, required := true } ] }

/-- The `email_expert` entry of `AGENT_TYPES`. -/
def email_expert_info : AgentTypeInfo :=
  { name := "Email Expert"
    description := "Gestion intelligente des emails - analyse, rédaction, réponses automatiques"
    defaultConfig := fun providers => JVal.obj
      [ ("llm_provider", JVal.str (firstProviderName providers))
      , ("llm_model", JVal.str "mistrallite:latest")
      , ("llm_temperature", JVal.num 0.6)
      , ("email_config", JVal.obj
          [ ("email", JVal.str "")
          , ("password", JVal.str "")
          , ("imap_host", JVal.str "imap.gmail.com")
          , ("imap_port", JVal.num 993)
          , ("smtp_host", JVal.str "smtp.gmail.com")
          , ("smtp_port", JVal.num 587)
          , ("auto_categorize", JVal.bool true)
          , ("auto_reply_enabled", JVal.bool false)
          , ("signature", JVal.str "Cordialement,\\nVotre Assistant IA")
          , ("default_tone", JVal.str "professional")
          , ("language", JVal.str "fr") ]) ]
    mcpConfig := JVal.obj []
    requiredFields := ["email_config.email", "email_config.password"]
    executeFields :=
      [ { name := "mode", label := "Email Mode", type := FieldType.select, required := true }
      , { name := "to", label := "To (for send modes)", type := FieldType.text }
      , { name := "subject", label := "Subject (for send modes)", type := FieldType.text }
      , { name := "body", label := "Body (for send_email)", type := FieldType.textarea }
      , { name := "instructions", label := "Instructions (for send_email_llm)", type := FieldType.textarea }
      , { name := "context", label := "Context (for send_email_llm)", type := FieldType.text }
      , { name := "limit", label := "Limit (for analyze_inbox)", type := FieldType.number }
      , { name := "unread_only", label := "Unread Only (for analyze_inbox)", type := FieldType.checkbox,
          defaultValue := some (JVal.bool true) }
      , { name := "auto_send", label := "Auto Send (for send_email_llm)", type := FieldType.checkbox,
          defaultValue := some (JVal.bool false) } ] }

/-- The `websearch` entry of `AGENT_TYPES`. -/
def websearch_info : AgentTypeInfo :=
  { name := "Web Search Agent"
    description := "Recherche web avancée avec synthèse par LLM"
    defaultConfig := fun providers => JVal.obj
      [ ("llm_provider", JVal.str (firstProviderName providers))
      , ("llm_model", JVal.str "mistrallite:latest")
      , ("llm_temperature", JVal.num 0.5)
      , ("search_config", JVal.obj
          [ ("max_results", JVal.num 10)
          , ("language", JVal.str "fr")
          , ("safe_search", JVal.bool true)
          , ("use_rag", JVal.bool false) ]) ]
    mcpConfig := JVal.obj []
    requiredFields := []
    executeFields :=
      [ { name := "query", label := "Search Query", type := FieldType.text, required := true } ] }

/-- The `AGENT_TYPES` object of Agents.jsx: the closed catalogue of agent
workflow types, as an association list preserving source order. -/
def AGENT_TYPES : List (String × AgentTypeInfo) :=
  [ ("branch_code_review", branch_code_review_info)
  , ("code_generator", code_generator_info)
  , ("legal_fiscal", legal_fiscal_info)
  , ("accounting_finance", accounting_finance_info)
  , ("travel_expert", travel_expert_info)
  , ("email_expert", email_expert_info)
  , ("websearch", websearch_info)
  ]

/-- Lookup `AGENT_TYPES[type]`. -/
def lookupAgentType (ty : String) : Option AgentTypeInfo :=
  (AGENT_TYPES.find? (fun e => e.1 = ty)).map Prod.snd

/-! ## Agent creation form (`Agents` component of Agents.jsx) -/

/-- The `formData` state of the `Agents` component. -/
structure FormData where
  name : String
  description : String
  agent_type : String
  config : JVal
  mcp_config : JVal

/-- The required-field test inside `validateForm`:
`!value || value.trim() === ''`.  For the credential fields this check is
applied to, the walked value is always a string or `undefined`; on a
non-string truthy value the JavaScript would throw at `.trim()`, a case
that never arises for these fields and is modelled as plain truthiness. -/
def missingOrBlank (v : Option JVal) : Bool :=
  match v with
  | some (JVal.str s) => jsTrim s = ""
  | v => jsFalsy v

/-- The `for (const field of agentType.requiredFields)` loop of
`validateForm`: the first failing field produces its error message. -/
def checkRequiredFields (formData : FormData) : List String → Except String Unit
  | [] => Except.ok ()
  | field :: rest =>
    let start := if jsStartsWith field "github" then formData.mcp_config else formData.config
    let value := jsGetPath (some start) (jsSplit '.' field)
    if missingOrBlank value then Except.error ("Field " ++ field ++ " is required")
    else checkRequiredFields formData rest

/-- `validateForm` from Agents.jsx: `Except.error msg` stands for
`setError(msg); return false`, `Except.ok ()` for `return true`.  The UI
only calls it with `selectedAgentType` a key of `AGENT_TYPES`; on any
other key the JavaScript would throw, modelled as an error. -/
def validateForm (selectedAgentType : String) (formData : FormData) : Except String Unit :=
  if jsTrim formData.name = "" then Except.error "Agent name is required"
  else
    match lookupAgentType selectedAgentType with
    | none => Except.error "unknown agent type"
    | some agentType => checkRequiredFields formData agentType.requiredFields

/-- `handleSubmit` of the `Agents` component (agent creation):
`if (!validateForm()) return;` then `api.post('/api/agents/', formData)`.
`some formData` stands for the issued POST; `none` means no request of
any kind was made. -/
def handleSubmitCreate (selectedAgentType : String) (formData : FormData) : Option FormData :=
  match validateForm selectedAgentType formData with
  | Except.error _ => none
  | Except.ok _ => some formData

/-- The Execute button of an agent card in Agents.jsx:
`disabled={!agent.is_active}`. -/
def executeButtonDisabled (is_active : Bool) : Bool :=
  !is_active

/-! ## Execute modal (`ExecuteAgentModal` component of Agents.jsx) -/

/-- The `executeData` state of the execute modal: field name → value;
an absent key is JavaScript `undefined`. -/
abbrev ExecData := List (String × JVal)

/-- `executeData[name]`. -/
def getField (d : ExecData) (name : String) : Option JVal :=
  (d.find? (fun e => e.1 = name)).map Prod.snd

/-- The validation loop of `ExecuteAgentModal.handleSubmit`: walk the
required fields in order and return the first one whose value is falsy. -/
def firstMissingRequired (d : ExecData) : List ExecField → Option ExecField
  | [] => none
  | f :: rest => if jsFalsy (getField d f.name) then some f else firstMissingRequired d rest

/-- JavaScript `parseInt(s)` (no radix argument) on a string: skip leading
whitespace, optional sign, `0x`/`0X` selects base 16, then the longest
prefix of digits of the base; no digit at all gives NaN (`none`). -/
def parseIntString (s : String) : Option Int :=
  let cs := s.toList.dropWhile Char.isWhitespace
  let signAndRest : Int × List Char :=
    match cs with
    | '-' :: rest => (-1, rest)
    | '+' :: rest => (1, rest)
    | _ => (1, cs)
  let radixAndRest : Nat × List Char :=
    match signAndRest.2 with
    | '0' :: 'x' :: rest => (16, rest)
    | '0' :: 'X' :: rest => (16, rest)
    | l => (10, l)
  let isDigitOf : Char → Bool := fun c =>
    if radixAndRest.1 = 16 then c.isDigit || ('a' ≤ c && c ≤ 'f') || ('A' ≤ c && c ≤ 'F')
    else c.isDigit
  let digitVal : Char → Nat := fun c =>
    if c.isDigit then c.toNat - 48
    else if 'a' ≤ c && c ≤ 'f' then c.toNat - 87
    else c.toNat - 55
  let digits := radixAndRest.2.takeWhile isDigitOf
  if digits = [] then none
  else some (signAndRest.1 * (digits.foldl (fun acc c => acc * radixAndRest.1 + digitVal c) (0 : Nat) : Nat))

/-- JavaScript `parseInt(x)` on the raw value of the limit input: the value
is either the string held by the `<input type="number">` or `undefined`.
`undefined` and boolean values coerce to the strings `"undefined"`,
`"true"`, `"false"`, none of which starts with a digit, hence NaN. -/
def jsParseInt : Option JVal → Option Int
  | some (JVal.str s) => parseIntString s
  | _ => none

/-- The expression `parseInt(executeData.limit) || 20` of the
`analyze_inbox` branch: NaN and `0` are falsy, so both fall back to 20. -/
def analyzeInboxLimit (d : ExecData) : Int :=
  match jsParseInt (getField d "limit") with
  | none => 20
  | some n => if n = 0 then 20 else n

/-- JavaScript `v || dflt` on a possibly-undefined value. -/
def jsOrElse (v : Option JVal) (dflt : JVal) : JVal :=
  match v with
  | none => dflt
  | some x => if jsFalsy (some x) then dflt else x

/-- The `input_data` object built by `ExecuteAgentModal.handleSubmit`,
keyed by `agent.agent_type`.  Values are possibly-`undefined`
(`Option JVal`), exactly as the assignments in the source can copy an
undefined `executeData` slot. -/
def buildInputData (agent_type : String) (d : ExecData) : List (String × Option JVal) :=
  if agent_type = "code_generator" then
    [ ("prompt", getField d "prompt")
    , ("create_new_files", some ((getField d "create_new_files").getD (JVal.bool true)))
    , ("test_mode", some ((getField d "test_mode").getD (JVal.bool true))) ]
  else if agent_type = "branch_code_review" then
    [ ("branch", getField d "branch") ]
  else if agent_type = "legal_fiscal" then
    [ ("mode", getField d "mode"), ("query", getField d "query") ] ++
    (match getField d "documents" with
     | some (JVal.str s) =>
         if s = "" then []
         else [("documents",
                some (JVal.arr ((((jsSplit ',' s).map jsTrim).filter (fun x => x ≠ "")).map JVal.str)))]
     | _ => [])
  else if agent_type = "accounting_finance" then
    [ ("mode", getField d "mode"), ("query", getField d "query") ]
  else if agent_type = "travel_expert" then
    [ ("mode", some (jsOrElse (getField d "mode") (JVal.str "itinerary_planning")))
    , ("query", getField d "query") ]
  else if agent_type = "email_expert" then
    let base := [("mode", getField d "mode")]
    match getField d "mode" with
    | some (JVal.str m) =>
        if m = "send_email" then
          base ++ [ ("to", getField d "to"), ("subject", getField d "subject"), ("body", getField d "body") ]
        else if m = "send_email_llm" then
          base ++ [ ("to", getField d "to"), ("subject", getField d "subject")
                  , ("instructions", getField d "instructions"), ("context", getField d "context")
                  , ("auto_send", some ((getField d "auto_send").getD (JVal.bool false))) ]
        else if m = "analyze_inbox" then
          base ++ [ ("limit", some (JVal.num ((analyzeInboxLimit d : Int) : ℚ)))
                  , ("unread_only", some ((getField d "unread_only").getD (JVal.bool true))) ]
        else base
    | _ => base
  else if agent_type = "websearch" then
    [ ("query", getField d "query") ]
  else []

/-- The request body `{ input_data, trigger: 'manual' }` posted to
`/api/agents/{id}/execute`. -/
structure Payload where
  input_data : List (String × Option JVal)
  trigger : String

namespace ExecuteAgentModal

/-- `handleSubmit` of `ExecuteAgentModal`: validate the required execute
fields, then build the payload and call `onExecute`.  `Except.error msg`
stands for `setError(msg); return` — `onExecute` is never invoked on that
path; `Except.ok p` stands for `onExecute(agent.id, p)`. -/
def handleSubmit (agentType : AgentTypeInfo) (agent_type : String) (d : ExecData) :
    Except String Payload :=
  match firstMissingRequired d (agentType.executeFields.filter (fun f => f.required)) with
  | some f => Except.error ("Field \"" ++ f.label ++ "\" is required")
  | none => Except.ok { input_data := buildInputData agent_type d, trigger := "manual" }

end ExecuteAgentModal

/-! ## MarkdownMessage (streaming renderer) -/

/-- JavaScript `\w`: ASCII letters, digits and underscore. -/
def isWordChar (c : Char) : Bool :=
  ('a' ≤ c && c ≤ 'z') || ('A' ≤ c && c ≤ 'Z') || c.isDigit || c = '_'

/-- Number of matches of the opening-fence pattern ```` /```(\w+)?\n/g ````
of `MarkdownMessage`, scanned left to right without overlap: three
backticks, an optional run of word characters, then a newline. -/
def countOpenFences : List Char → Nat
  | '`' :: '`' :: '`' :: rest =>
      (match h : rest.drop (rest.takeWhile isWordChar).length with
       | '\n' :: tail => 1 + countOpenFences tail
       | _ => countOpenFences ('`' :: '`' :: rest))
  | _ :: rest => countOpenFences rest
  | [] => 0
termination_by cs => cs.length
decreasing_by
  all_goals simp [List.length_drop]
  all_goals (have hl := congrArg List.length h; simp [List.length_drop] at hl; omega)

/-- Number of matches of the closing-fence pattern ```` /```\s*$/gm ```` of
`MarkdownMessage`: three backticks followed by whitespace reaching an
end-of-line or the end of the string.  A match consumes the backticks and
the whitespace run (the run contains no backtick, so the count is
unaffected by where exactly inside it the match ends). -/
def countCloseFences : List Char → Nat
  | '`' :: '`' :: '`' :: rest =>
      let w := rest.takeWhile Char.isWhitespace
      if rest.drop w.length = [] || w.contains '\n' then 1 + countCloseFences (rest.drop w.length)
      else countCloseFences ('`' :: '`' :: rest)
  | _ :: rest => countCloseFences rest
  | [] => 0
termination_by cs => cs.length
decreasing_by
  all_goals simp [List.length_drop]
  all_goals try omega

/-- The incomplete-list test `/^[\s]*[-*]\s*$/` applied to the last line:
optional whitespace, a `-` or `*`, optional whitespace, end. -/
def isIncompleteListLine (cs : List Char) : Bool :=
  match cs.dropWhile Char.isWhitespace with
  | c :: tail => (c = '-' || c = '*') && tail.all Char.isWhitespace
  | [] => false

/-- The `processedContent` memo of `MarkdownMessage` (part_000 lines
826–851): identity unless streaming; while streaming, close an unbalanced
code fence or mark an incomplete trailing list item. -/
def processedContent (content : String) (isStreaming : Bool) : String :=
  if !isStreaming then content
  else if countOpenFences content.toList > countCloseFences content.toList then
    content ++ "\n```\n\n_Génération en cours..._"
  else
    let lastLine := ((jsSplit '\n' content).getLastD "")
    if lastLine ≠ "" && isIncompleteListLine lastLine.toList then content ++ "..."
    else content

/-! ## Execution engine (modelled from the spec)

The Execution Orchestrator, the Tool Protocol Client and the Event Stream
described by the design document (§3–§4.5) are not part of `src/`; the
definitions of this section are modelled from the spec. -/

/-- Modelled from the spec: the Execution status set of §4.1 — the engine
never materializes `idle` as a stored Execution, so only `running` and the
three terminal states exist on records. -/
inductive ExecStatus where
  | running | completed | failed | cancelled
deriving Repr, DecidableEq

/-- The three sink states of the state machine (§4.1). -/
def ExecStatus.isTerminal : ExecStatus → Bool
  | ExecStatus.running => false
  | _ => true

/-- Modelled from the spec: the Execution record of §3 (identifier,
reference to the AgentDefinition, status, input payload, result, counters,
timestamps, failure detail).  The ordered log is omitted here; no claim in
scope quantifies over its entries. -/
structure Execution where
  id : Nat
  agentId : String
  status : ExecStatus
  input : JVal
  result : Option JVal
  tokens_used : Nat
  mcp_calls : List (String × Nat)
  started_at : Nat
  completed_at : Option Nat
  error : Option String

/-- Modelled from the spec: the only status mutation of an Execution
(§3/§4.1): `running → {completed, failed, cancelled}` is accepted and sets
`completed_at` at that same transition; every other transition is
rejected. -/
def applyTransition (e : Execution) (tgt : ExecStatus) (now : Nat) : Option Execution :=
  if e.status = ExecStatus.running && tgt.isTerminal then
    some { e with status := tgt, completed_at := some now }
  else none

/-- Modelled from the spec: the AgentDefinition snapshot of §3 (identifier,
workflow type, typed configuration, tool-server credentials map, active
flag). -/
structure AgentDef where
  id : String
  agent_type : String
  is_active : Bool
  config : JVal
  mcp_config : JVal

/-- Modelled from the spec: the Orchestrator's bookkeeping — the stored
Execution records plus the next fresh identifier. -/
structure OrchState where
  executions : List Execution
  nextId : Nat

/-- Outcome of a `start` request (§4.1): accepted with a fresh Execution,
rejected with `ConfigError`, or rejected with `ConcurrentExecutionError`
returning the existing running Execution as reference. -/
inductive StartOutcome where
  | started (e : Execution)
  | configError
  | concurrentError (existing : Execution)

/-- The running Execution stored for an AgentDefinition identifier, if
any — the mutual-exclusion check of §5. -/
def findRunning (st : OrchState) (agentId : String) : Option Execution :=
  st.executions.find? (fun e => e.agentId = agentId && e.status = ExecStatus.running)

/-- Modelled from the spec: `start(agentDefinition, inputPayload)` of §4.1.
An inactive definition fails with `ConfigError` before any step runs and
creates nothing; a definition with a running Execution fails with
`ConcurrentExecutionError` returning the existing record and creating
nothing; otherwise a fresh Execution is created in `running` state with
`completed_at` null. -/
def start (st : OrchState) (ag : AgentDef) (input : JVal) (now : Nat) :
    StartOutcome × OrchState :=
  if !ag.is_active then (StartOutcome.configError, st)
  else
    match findRunning st ag.id with
    | some e => (StartOutcome.concurrentError e, st)
    | none =>
        let e : Execution :=
          { id := st.nextId, agentId := ag.id, status := ExecStatus.running, input := input,
            result := none, tokens_used := 0, mcp_calls := [], started_at := now,
            completed_at := none, error := none }
        (StartOutcome.started e, { executions := st.executions ++ [e], nextId := st.nextId + 1 })

/-! ### Tool Protocol Client (modelled from the spec, §4.2/§4.4) -/

/-- Modelled from the spec: the Tool Protocol Client's view of one
Execution — the configured tool-server names (resolved from the
AgentDefinition's credentials map) and the `mcp_calls` counters. -/
structure ToolClientState where
  credentials : List String
  mcp_calls : List (String × Nat)

/-- Current value of `mcp_calls[s]` (0 when absent). -/
def getCalls (m : List (String × Nat)) (s : String) : Nat :=
  ((m.find? (fun e => e.1 = s)).map Prod.snd).getD 0

/-- Increment `mcp_calls[s]` by one. -/
def bumpCalls (m : List (String × Nat)) (s : String) : List (String × Nat) :=
  match m with
  | [] => [(s, 1)]
  | (k, v) :: rest => if k = s then (k, v + 1) :: rest else (k, v) :: bumpCalls rest s

/-- Result of one logical tool call (§4.2): success, failure after retry
exhaustion, or `ConfigError` for an unknown server name. -/
inductive CallResult where
  | ok | transientFailure | configError
deriving Repr, DecidableEq

/-- Modelled from the spec: the retry loop of §4.4 — `attempts` records
the outcome of each would-be attempt (`true` = success); up to
`maxAttempts` of them are consumed and the logical call succeeds when any
consumed attempt does. -/
def retryLoop (attempts : List Bool) (maxAttempts : Nat) : Bool :=
  (attempts.take maxAttempts).any id

/-- Modelled from the spec: `call(serverName, method, params, timeout)` of
§4.2.  An unknown `serverName` fails immediately with `ConfigError`, no
retry, no count increment; otherwise the logical call — after its internal
retries — increments `mcp_calls[serverName]` by exactly one, whatever its
outcome and however many attempts were made. -/
def call (st : ToolClientState) (serverName : String) (attempts : List Bool)
    (maxAttempts : Nat) : CallResult × ToolClientState :=
  if serverName ∉ st.credentials then (CallResult.configError, st)
  else
    ((if retryLoop attempts maxAttempts then CallResult.ok else CallResult.transientFailure),
     { st with mcp_calls := bumpCalls st.mcp_calls serverName })

/-- A sequence of logical `invokeTool` calls issued by one Workflow, each
with the attempt outcomes of its retry loop. -/
def runCalls (maxAttempts : Nat) : ToolClientState → List (String × List Bool) → ToolClientState
  | st, [] => st
  | st, (s, attempts) :: rest => runCalls maxAttempts (call st s attempts maxAttempts).2 rest

/-! ### Event stream (modelled from the spec, §4.3/§4.5) -/

/-- Modelled from the spec: the three event kinds a Workflow may produce
(§4.3/§4.5) — `done` is deliberately absent, a Workflow never emits it. -/
inductive WfEvent where
  | log (level message : String)
  | progress (step : String) (percent : Nat)
  | result (data : JVal)

/-- Modelled from the spec: the four wire event kinds of §4.3. -/
inductive Event where
  | log (level message : String)
  | progress (step : String) (percent : Nat)
  | result (data : JVal)
  | done (status : ExecStatus) (tokensUsed : Nat) (mcpCalls : List (String × Nat))

/-- Modelled from the spec: the Orchestrator's relay of Workflow events to
the Event Sink.  The shared `progress` primitive of §4.5 reports through
the accounting hooks, which track the last percent delivered so that
`progress.percent` is monotonically non-decreasing within one Execution
(§4.3). -/
def relayEvents (lastPercent : Nat) : List WfEvent → List Event
  | [] => []
  | WfEvent.log lv msg :: rest => Event.log lv msg :: relayEvents lastPercent rest
  | WfEvent.progress stp p :: rest =>
      Event.progress stp (max lastPercent p) :: relayEvents (max lastPercent p) rest
  | WfEvent.result d :: rest => Event.result d :: relayEvents lastPercent rest

/-- Modelled from the spec: a full run as seen by a stream consumer — the
relayed Workflow events followed by the single `done` event synthesized by
the Orchestrator (§4.1/§4.3), always the last message on the stream. -/
def orchestratorRun (wf : List WfEvent) (final : ExecStatus) (tokensUsed : Nat)
    (mcpCalls : List (String × Nat)) : List Event :=
  relayEvents 0 wf ++ [Event.done final tokensUsed mcpCalls]

/-- The percent values carried by the progress events of a stream, in
emission order. -/
def percents : List Event → List Nat
  | [] => []
  | Event.progress _ p :: rest => p :: percents rest
  | _ :: rest => percents rest

/-- Recognizer of the `done` event. -/
def isDone : Event → Bool
  | Event.done _ _ _ => true
  | _ => false

/-! ## Helper lemmas -/

lemma checkRequiredFields_error (fd : FormData) :
    ∀ fields : List String,
      (∃ f ∈ fields,
        missingOrBlank (jsGetPath
          (some (if jsStartsWith f "github" then fd.mcp_config else fd.config))
          (jsSplit '.' f)) = true) →
      ∃ msg, checkRequiredFields fd fields = Except.error msg := by
  intro fields
  induction fields with
  | nil => rintro ⟨f, hf, _⟩; cases hf
  | cons g rest ih =>
    rintro ⟨f, hf, hfail⟩
    by_cases hg : missingOrBlank (jsGetPath
        (some (if jsStartsWith g "github" then fd.mcp_config else fd.config))
        (jsSplit '.' g)) = true
    · exact ⟨"Field " ++ g ++ " is required", by simp [checkRequiredFields, hg]⟩
    · rcases List.mem_cons.mp hf with rfl | hf2
      · exact absurd hfail hg
      · obtain ⟨msg, hmsg⟩ := ih ⟨f, hf2, hfail⟩
        exact ⟨msg, by simp [checkRequiredFields, hg, hmsg]⟩

lemma firstMissingRequired_spec (d : ExecData) :
    ∀ L : List ExecField,
      (∃ f ∈ L, jsFalsy (getField d f.name) = true) →
      ∃ f ∈ L, jsFalsy (getField d f.name) = true ∧ firstMissingRequired d L = some f := by
  intro L
  induction L with
  | nil => rintro ⟨f, hf, _⟩; cases hf
  | cons g rest ih =>
    rintro ⟨f, hf, hfail⟩
    by_cases hg : jsFalsy (getField d g.name) = true
    · exact ⟨g, List.mem_cons_self g rest, hg, by simp [firstMissingRequired, hg]⟩
    · rcases List.mem_cons.mp hf with rfl | hf2
      · exact absurd hfail hg
      · obtain ⟨f2, hmem, hfalsy, hfirst⟩ := ih ⟨f, hf2, hfail⟩
        exact ⟨f2, List.mem_cons_of_mem g hmem, hfalsy,
          by simp [firstMissingRequired, hg, hfirst]⟩

lemma getCalls_bumpCalls (m : List (String × Nat)) (s : String) :
    getCalls (bumpCalls m s) s = getCalls m s + 1 := by
  induction m with
  | nil => simp [bumpCalls, getCalls]
  | cons kv rest ih =>
    obtain ⟨k, v⟩ := kv
    by_cases hk : k = s
    · simp [bumpCalls, getCalls, hk]
    · have := ih
      simp only [getCalls] at this
      simp [bumpCalls, getCalls, hk, this]

lemma getCalls_bumpCalls_ne (m : List (String × Nat)) (s t : String) (h : t ≠ s) :
    getCalls (bumpCalls m t) s = getCalls m s := by
  induction m with
  | nil => simp [bumpCalls, getCalls, h]
  | cons kv rest ih =>
    obtain ⟨k, v⟩ := kv
    by_cases hks : k = s
    · subst hks
      simp [bumpCalls, getCalls, Ne.symm h]
    · by_cases hkt : k = t
      · subst hkt
        simp [bumpCalls, getCalls, hks]
      · have := ih
        simp only [getCalls] at this
        simp [bumpCalls, getCalls, hks, hkt, this]

lemma call_credentials (st : ToolClientState) (s : String) (attempts : List Bool)
    (maxA : Nat) : (call st s attempts maxA).2.credentials = st.credentials := by
  by_cases h : s ∈ st.credentials <;> simp [call, h]

lemma runCalls_getCalls (maxA : Nat) (s : String) :
    ∀ (calls : List (String × List Bool)) (st : ToolClientState),
      getCalls (runCalls maxA st calls).mcp_calls s =
        getCalls st.mcp_calls s +
          (if s ∈ st.credentials then calls.countP (fun c => c.1 = s) else 0) := by
  intro calls
  induction calls with
  | nil => intro st; simp [runCalls]
  | cons c rest ih =>
    intro st
    obtain ⟨t, attempts⟩ := c
    have hcred := call_credentials st t attempts maxA
    by_cases ht : t ∈ st.credentials
    · have hstep : (call st t attempts maxA).2.mcp_calls = bumpCalls st.mcp_calls t := by
        simp [call, ht]
      by_cases hts : t = s
      · subst hts
        simp only [runCalls, ih, hcred, hstep, getCalls_bumpCalls, List.countP_cons, ht]
        simp [ht]
        omega
      · simp only [runCalls, ih, hcred, hstep, getCalls_bumpCalls_ne _ _ _ hts,
          List.countP_cons]
        simp [hts]
    · have hstep : (call st t attempts maxA).2 = st := by
        simp [call, ht]
      rw [runCalls, hstep, ih st, List.countP_cons]
      by_cases hts : t = s
      · subst hts; simp [ht]
      · simp [hts]

lemma percents_relay_ge (wf : List WfEvent) :
    ∀ last, ∀ x ∈ percents (relayEvents last wf), last ≤ x := by
  induction wf with
  | nil => intro last x hx; simp [relayEvents, percents] at hx
  | cons ev rest ih =>
    intro last x hx
    cases ev with
    | log lv msg => exact ih last x (by simpa [relayEvents, percents] using hx)
    | result d => exact ih last x (by simpa [relayEvents, percents] using hx)
    | progress stp p =>
      simp only [relayEvents, percents, List.mem_cons] at hx
      rcases hx with rfl | hx
      · exact le_max_left _ _
      · exact le_trans (le_max_left _ _) (ih (max last p) x hx)

lemma percents_relay_chain (wf : List WfEvent) :
    ∀ last, List.Chain' (· ≤ ·) (percents (relayEvents last wf)) := by
  induction wf with
  | nil => intro last; simp [relayEvents, percents]
  | cons ev rest ih =>
    intro last
    cases ev with
    | log lv msg => simpa [relayEvents, percents] using ih last
    | result d => simpa [relayEvents, percents] using ih last
    | progress stp p =>
      simp only [relayEvents, percents]
      rw [List.chain'_cons']
      refine ⟨?_, ih (max last p)⟩
      intro y hy
      exact percents_relay_ge rest (max last p) y (List.mem_of_mem_head? hy)

lemma relay_no_done (wf : List WfEvent) :
    ∀ last, ∀ ev ∈ relayEvents last wf, isDone ev = false := by
  induction wf with
  | nil => intro last ev hev; simp [relayEvents] at hev
  | cons e rest ih =>
    intro last ev hev
    cases e <;>
      · simp only [relayEvents, List.mem_cons] at hev
        rcases hev with rfl | hev
        · rfl
        · exact ih _ ev hev

lemma find?_fst_isSome {α : Type} (l : List (String × α)) (ty : String) :
    ((l.find? (fun e => e.1 = ty)).map Prod.snd).isSome ↔ ty ∈ l.map Prod.fst := by
  rw [Option.isSome_map', List.find?_isSome]
  simp

lemma percents_append (l1 l2 : List Event) :
    percents (l1 ++ l2) = percents l1 ++ percents l2 := by
  induction l1 with
  | nil => simp [percents]
  | cons e rest ih => cases e <;> simp [percents, ih]

/-! ## Claims -/

/-- C9: for every content string, when `isStreaming` is false the
`MarkdownMessage` preprocessing is the identity — `processedContent`
equals `content` unchanged; the temporary code-fence closing and ellipsis
additions apply only while streaming. -/
theorem c9_markdown_identity_when_not_streaming (content : String) :
    processedContent content false = content := rfl

/-- Witness for C9 at a concrete content string. -/
theorem c9_markdown_identity_witness :
    processedContent "```python\nprint(1)" false = "```python\nprint(1)" :=
  c9_markdown_identity_when_not_streaming "```python\nprint(1)"

/-- C5: the workflow type of an AgentDefinition is drawn from a closed set
of exactly seven named variants — branch code review, code generation,
legal/fiscal analysis, accounting analysis, travel planning, email
handling and web search — the keys of `AGENT_TYPES` in source order and
nothing else; every entry carries its own default configuration and
required-field list by construction of `AgentTypeInfo`. -/
theorem c5_agent_types_closed_set :
    AGENT_TYPES.map Prod.fst =
      ["branch_code_review", "code_generator", "legal_fiscal", "accounting_finance",
       "travel_expert", "email_expert", "websearch"]
    ∧ (AGENT_TYPES.map Prod.fst).Nodup
    ∧ ∀ ty : String, (lookupAgentType ty).isSome ↔ ty ∈ AGENT_TYPES.map Prod.fst := by
  refine ⟨rfl, by decide, ?_⟩
  intro ty
  exact find?_fst_isSome AGENT_TYPES ty

/-- Witness for C5: a key of the catalogue resolves. -/
theorem c5_agent_types_witness : (lookupAgentType "websearch").isSome :=
  (c5_agent_types_closed_set.2.2 "websearch").mpr (by decide)

/-- C1: for every agent whose `is_active` flag is false, requesting an
execution fails with `ConfigError` before any step runs and no Execution
record is created (the Orchestrator state is unchanged); in the UI, the
Execute button is disabled for an inactive agent, so the action is not
invocable. -/
theorem c1_inactive_agent_start_rejected (st : OrchState) (ag : AgentDef) (input : JVal)
    (now : Nat) (h : ag.is_active = false) :
    (start st ag input now).1 = StartOutcome.configError
    ∧ (start st ag input now).2 = st
    ∧ executeButtonDisabled ag.is_active = true := by
  simp [start, h, executeButtonDisabled]

/-- Witness for C1 at a concrete inactive agent and empty store. -/
theorem c1_inactive_agent_witness :
    (start ⟨[], 0⟩
        ⟨"agent-1", "websearch", false, JVal.obj [], JVal.obj []⟩
        (JVal.obj []) 0).1 = StartOutcome.configError
    ∧ (start ⟨[], 0⟩
        ⟨"agent-1", "websearch", false, JVal.obj [], JVal.obj []⟩
        (JVal.obj []) 0).2 = (⟨[], 0⟩ : OrchState)
    ∧ executeButtonDisabled false = true :=
  c1_inactive_agent_start_rejected ⟨[], 0⟩
    ⟨"agent-1", "websearch", false, JVal.obj [], JVal.obj []⟩ (JVal.obj []) 0 rfl

/-- C3: at most one running Execution per AgentDefinition identifier — a
second start request while one is running fails with
`ConcurrentExecutionError`, returns the existing running Execution as
reference, and creates no new Execution record (the state is unchanged). -/
theorem c3_concurrent_execution_rejected (st : OrchState) (ag : AgentDef) (input : JVal)
    (now : Nat) (e : Execution) (hact : ag.is_active = true)
    (hrun : findRunning st ag.id = some e) :
    (start st ag input now).1 = StartOutcome.concurrentError e
    ∧ (start st ag input now).2 = st
    ∧ e.agentId = ag.id ∧ e.status = ExecStatus.running := by
  have hrun2 : st.executions.find?
      (fun x => x.agentId = ag.id && x.status = ExecStatus.running) = some e := hrun
  have hp := List.find?_some hrun2
  simp only [Bool.and_eq_true, decide_eq_true_eq] at hp
  refine ⟨?_, ?_, hp.1, hp.2⟩ <;> simp [start, hact, hrun]

/-- Witness for C3 at a concrete store holding one running Execution. -/
theorem c3_concurrent_execution_witness :
    (start
        ⟨[⟨7, "agent-1", ExecStatus.running, JVal.obj [], none, 0, [], 0, none, none⟩], 8⟩
        ⟨"agent-1", "websearch", true, JVal.obj [], JVal.obj []⟩
        (JVal.obj []) 3).1
      = StartOutcome.concurrentError
          ⟨7, "agent-1", ExecStatus.running, JVal.obj [], none, 0, [], 0, none, none⟩
    ∧ (start
        ⟨[⟨7, "agent-1", ExecStatus.running, JVal.obj [], none, 0, [], 0, none, none⟩], 8⟩
        ⟨"agent-1", "websearch", true, JVal.obj [], JVal.obj []⟩
        (JVal.obj []) 3).2
      = (⟨[⟨7, "agent-1", ExecStatus.running, JVal.obj [], none, 0, [], 0, none, none⟩], 8⟩ :
          OrchState)
    ∧ (⟨7, "agent-1", ExecStatus.running, JVal.obj [], none, 0, [], 0, none, none⟩ :
          Execution).agentId = "agent-1"
    ∧ (⟨7, "agent-1", ExecStatus.running, JVal.obj [], none, 0, [], 0, none, none⟩ :
          Execution).status = ExecStatus.running :=
  c3_concurrent_execution_rejected _ _ _ 3 _ rfl rfl

/-- C2: the Execution status only moves along
`running → {completed, failed, cancelled}` — a transition is accepted iff
it leaves `running` for a terminal state, so in particular no transition
leaves a terminal state; an accepted transition sets `completed_at` at
that same step, and a freshly started Execution is `running` with
`completed_at` null, so `completed_at` is set exactly once, at the
transition that sets the terminal status. -/
theorem c2_status_transition_machine (e : Execution) (tgt : ExecStatus) (now : Nat) :
    ((applyTransition e tgt now).isSome ↔
      (e.status = ExecStatus.running ∧ tgt.isTerminal = true))
    ∧ (e.status.isTerminal = true → applyTransition e tgt now = none)
    ∧ (∀ e2, applyTransition e tgt now = some e2 →
        e2.status = tgt ∧ e2.completed_at = some now ∧ e2.status.isTerminal = true)
    ∧ (∀ (st : OrchState) (ag : AgentDef) (input : JVal) (e0 : Execution),
        (start st ag input now).1 = StartOutcome.started e0 →
        e0.status = ExecStatus.running ∧ e0.completed_at = none) := by
  refine ⟨?_, ?_, ?_, ?_⟩
  · simp [applyTransition]
  · intro hterm
    have : ¬e.status = ExecStatus.running := by
      intro hr
      rw [hr] at hterm
      simp [ExecStatus.isTerminal] at hterm
    simp [applyTransition, this]
  · intro e2 h
    by_cases hc : (e.status = ExecStatus.running && tgt.isTerminal : Bool) = true
    · simp only [applyTransition, hc, if_true, if_pos, Option.some_inj] at h
      simp only [Bool.and_eq_true, decide_eq_true_eq] at hc
      subst h
      exact ⟨rfl, rfl, hc.2⟩
    · simp [applyTransition, hc] at h
  · intro st ag input e0 h
    by_cases hia : ag.is_active
    · cases hfr : findRunning st ag.id with
      | some ex => simp [start, hia, hfr] at h
      | none =>
        simp only [start, hia, Bool.not_true, Bool.false_eq_true, if_false, hfr] at h
        cases h
        exact ⟨rfl, rfl⟩
    · simp [start, hia] at h

/-- Witness for C2: a concrete running Execution accepts the transition to
`completed` and gets `completed_at` stamped there. -/
theorem c2_status_transition_witness :
    ∃ e2, applyTransition
        ⟨7, "agent-1", ExecStatus.running, JVal.obj [], none, 0, [], 0, none, none⟩
        ExecStatus.completed 5 = some e2
      ∧ e2.completed_at = some 5 ∧ e2.status = ExecStatus.completed := by
  obtain ⟨e2, he2⟩ := Option.isSome_iff_exists.mp
    ((c2_status_transition_machine
        ⟨7, "agent-1", ExecStatus.running, JVal.obj [], none, 0, [], 0, none, none⟩
        ExecStatus.completed 5).1.mpr ⟨rfl, rfl⟩)
  have hprops := (c2_status_transition_machine
      ⟨7, "agent-1", ExecStatus.running, JVal.obj [], none, 0, [], 0, none, none⟩
      ExecStatus.completed 5).2.2.1 e2 he2
  exact ⟨e2, he2, hprops.2.1, hprops.1⟩

/-- C4: for every `branch_code_review` agent-creation form in which
`github.token` or `github.repo` is missing or consists only of whitespace,
`validateForm` rejects the form with an error and `handleSubmit` issues no
request — no agent (and hence no Execution) is created; the
required-credential check runs before any call is made. -/
theorem c4_branch_code_review_credentials_required (fd : FormData)
    (h : jsGetPath (some fd.mcp_config) ["github", "token"] = none
       ∨ (∃ s, jsGetPath (some fd.mcp_config) ["github", "token"] = some (JVal.str s)
            ∧ jsTrim s = "")
       ∨ jsGetPath (some fd.mcp_config) ["github", "repo"] = none
       ∨ (∃ s, jsGetPath (some fd.mcp_config) ["github", "repo"] = some (JVal.str s)
            ∧ jsTrim s = "")) :
    (∃ msg, validateForm "branch_code_review" fd = Except.error msg)
    ∧ handleSubmitCreate "branch_code_review" fd = none := by
  have hstart : ∀ f : String, jsStartsWith f "github" = true →
      (if jsStartsWith f "github" then fd.mcp_config else fd.config) = fd.mcp_config := by
    intro f hf
    simp [hf]
  have hmb : missingOrBlank (jsGetPath (some fd.mcp_config) ["github", "token"]) = true
      ∨ missingOrBlank (jsGetPath (some fd.mcp_config) ["github", "repo"]) = true := by
    rcases h with h | ⟨s, hs, hts⟩ | h | ⟨s, hs, hts⟩
    · exact Or.inl (by simp [missingOrBlank, jsFalsy, h])
    · exact Or.inl (by simp [missingOrBlank, hs, hts])
    · exact Or.inr (by simp [missingOrBlank, jsFalsy, h])
    · exact Or.inr (by simp [missingOrBlank, hs, hts])
  have hfields : ∃ f ∈ ["github.token", "github.repo"],
      missingOrBlank (jsGetPath
        (some (if jsStartsWith f "github" then fd.mcp_config else fd.config))
        (jsSplit '.' f)) = true := by
    rcases hmb with hmb | hmb
    · refine ⟨"github.token", by simp, ?_⟩
      rw [hstart "github.token" (by decide)]
      have hsplit : jsSplit '.' "github.token" = ["github", "token"] := by decide
      rw [hsplit]
      exact hmb
    · refine ⟨"github.repo", by simp, ?_⟩
      rw [hstart "github.repo" (by decide)]
      have hsplit : jsSplit '.' "github.repo" = ["github", "repo"] := by decide
      rw [hsplit]
      exact hmb
  have hval : ∃ msg, validateForm "branch_code_review" fd = Except.error msg := by
    by_cases hn : jsTrim fd.name = ""
    · exact ⟨"Agent name is required", by simp [validateForm, hn]⟩
    · have hlk : lookupAgentType "branch_code_review" = some branch_code_review_info := rfl
      have hreq : branch_code_review_info.requiredFields
          = ["github.token", "github.repo"] := rfl
      obtain ⟨msg, hmsg⟩ := checkRequiredFields_error fd ["github.token", "github.repo"] hfields
      refine ⟨msg, ?_⟩
      simp only [validateForm, hn, if_false, hlk, hreq]
      simpa using hmsg
  refine ⟨hval, ?_⟩
  obtain ⟨msg, hmsg⟩ := hval
  simp [handleSubmitCreate, hmsg]

/-- Witness for C4: a form with a filled token but whitespace-only
repository is rejected and nothing is posted. -/
theorem c4_branch_code_review_witness :
    (∃ msg, validateForm "branch_code_review"
        ⟨"My Reviewer", "", "branch_code_review", JVal.obj [],
          JVal.obj [("github", JVal.obj [("token", JVal.str "ghp_x"), ("repo", JVal.str "  ")])]⟩
      = Except.error msg)
    ∧ handleSubmitCreate "branch_code_review"
        ⟨"My Reviewer", "", "branch_code_review", JVal.obj [],
          JVal.obj [("github", JVal.obj [("token", JVal.str "ghp_x"), ("repo", JVal.str "  ")])]⟩
      = none :=
  c4_branch_code_review_credentials_required _
    (Or.inr (Or.inr (Or.inr ⟨"  ", rfl, rfl⟩)))

/-- C8: for every agent type and every execute-modal submission in which
some field marked required holds a falsy (missing or empty) value, the
submission sets an error naming such a field (the first one in source
order) and never invokes `onExecute` — no execution request is issued. -/
theorem c8_execute_modal_required_fields (info : AgentTypeInfo) (aty : String) (d : ExecData)
    (h : ∃ f ∈ info.executeFields, f.required = true ∧ jsFalsy (getField d f.name) = true) :
    ∃ f ∈ info.executeFields, f.required = true ∧ jsFalsy (getField d f.name) = true
      ∧ ExecuteAgentModal.handleSubmit info aty d =
          Except.error ("Field \"" ++ f.label ++ "\" is required")
      ∧ ∀ p, ExecuteAgentModal.handleSubmit info aty d ≠ Except.ok p := by
  obtain ⟨f, hf, hreq, hfalsy⟩ := h
  have hmem : f ∈ info.executeFields.filter (fun g => g.required) :=
    List.mem_filter.mpr ⟨hf, by simp [hreq]⟩
  obtain ⟨g, hgmem, hgfalsy, hgfirst⟩ :=
    firstMissingRequired_spec d (info.executeFields.filter (fun g => g.required))
      ⟨f, hmem, hfalsy⟩
  have hgfull := List.mem_filter.mp hgmem
  refine ⟨g, hgfull.1, by simpa using hgfull.2, hgfalsy, ?_, ?_⟩
  · simp [ExecuteAgentModal.handleSubmit, hgfirst]
  · intro p
    simp [ExecuteAgentModal.handleSubmit, hgfirst]

/-- Witness for C8: submitting the code-review execute modal with no
branch entered produces the error naming the branch field and issues no
request. -/
theorem c8_execute_modal_witness :
    ∃ f ∈ branch_code_review_info.executeFields,
      f.required = true ∧ jsFalsy (getField [] f.name) = true
      ∧ ExecuteAgentModal.handleSubmit branch_code_review_info "branch_code_review" [] =
          Except.error ("Field \"" ++ f.label ++ "\" is required")
      ∧ ∀ p, ExecuteAgentModal.handleSubmit branch_code_review_info "branch_code_review" []
            ≠ Except.ok p :=
  c8_execute_modal_required_fields branch_code_review_info "branch_code_review" []
    ⟨{ name := "branch", label := "Branch Name", type := FieldType.text, required := true },
      List.mem_cons_self _ _, rfl, rfl⟩

/-- C10: for every `email_expert` execute submission whose mode is
`analyze_inbox`, the built `input_data` contains exactly the fields
`mode`, `limit` and `unread_only`; `limit` is `parseInt` of the entered
limit field falling back to 20 when the parse is NaN or yields 0 (so an
explicit "0" is sent as 20), and `unread_only` defaults to true when the
slot is unset. -/
theorem c10_analyze_inbox_payload (d : ExecData)
    (h : getField d "mode" = some (JVal.str "analyze_inbox")) :
    buildInputData "email_expert" d =
      [ ("mode", some (JVal.str "analyze_inbox"))
      , ("limit", some (JVal.num ((analyzeInboxLimit d : Int) : ℚ)))
      , ("unread_only", some ((getField d "unread_only").getD (JVal.bool true))) ]
    ∧ (∀ n : Int, jsParseInt (getField d "limit") = some n → n ≠ 0 → analyzeInboxLimit d = n)
    ∧ ((jsParseInt (getField d "limit") = none ∨ jsParseInt (getField d "limit") = some 0) →
        analyzeInboxLimit d = 20)
    ∧ (getField d "unread_only" = none →
        (getField d "unread_only").getD (JVal.bool true) = JVal.bool true) := by
  refine ⟨?_, ?_, ?_, ?_⟩
  · simp [buildInputData, h]
  · intro n hn hn0
    simp [analyzeInboxLimit, hn, hn0]
  · rintro (h0 | h0) <;> simp [analyzeInboxLimit, h0]
  · intro h0
    simp [h0]

/-- Witness for C10: an explicit limit of "0" is sent as 20, and an unset
unread_only is sent as true. -/
theorem c10_analyze_inbox_witness :
    buildInputData "email_expert" [("mode", JVal.str "analyze_inbox"), ("limit", JVal.str "0")] =
      [ ("mode", some (JVal.str "analyze_inbox"))
      , ("limit", some (JVal.num 20))
      , ("unread_only", some (JVal.bool true)) ] := by
  have hc := (c10_analyze_inbox_payload
      [("mode", JVal.str "analyze_inbox"), ("limit", JVal.str "0")] rfl).1
  have h20 : analyzeInboxLimit [("mode", JVal.str "analyze_inbox"), ("limit", JVal.str "0")]
      = 20 := rfl
  rw [hc, h20]
  norm_num [getField]
  rfl

/-- C6: for every Execution and tool-server name `s`, the final
`mcp_calls[s]` equals the number of logically distinct `invokeTool` calls
issued to a configured server `s`; the state left by one logical call is
independent of its retry attempts (individual retries never increment the
counter), and a call to an unknown server name fails with `ConfigError`
and increments no counter. -/
theorem c6_mcp_call_accounting (st : ToolClientState) (s : String) (maxA : Nat) :
    (∀ a1 a2 : List Bool, (call st s a1 maxA).2 = (call st s a2 maxA).2)
    ∧ (s ∉ st.credentials → ∀ attempts, call st s attempts maxA = (CallResult.configError, st))
    ∧ (∀ calls : List (String × List Bool),
        getCalls (runCalls maxA st calls).mcp_calls s =
          getCalls st.mcp_calls s +
            (if s ∈ st.credentials then calls.countP (fun c => c.1 = s) else 0)) := by
  refine ⟨?_, ?_, ?_⟩
  · intro a1 a2
    by_cases h : s ∈ st.credentials <;> simp [call, h]
  · intro h attempts
    simp [call, h]
  · intro calls
    exact runCalls_getCalls maxA s calls st

/-- Witness for C6: two logical calls to the configured server `github`
(one exhausting its retries, one succeeding) and one call to an unknown
server leave `mcp_calls[github] = 2`. -/
theorem c6_mcp_call_witness :
    getCalls (runCalls 3 ⟨["github"], []⟩
        [("github", [false, false, false]), ("unknown", [true]), ("github", [true])]).mcp_calls
      "github" = 2 := by
  have h := (c6_mcp_call_accounting ⟨["github"], []⟩ "github" 3).2.2
    [("github", [false, false, false]), ("unknown", [true]), ("github", [true])]
  simpa [getCalls] using h

/-- C7: within one Execution, the percent values carried by the emitted
progress events are monotonically non-decreasing, and the `done` event —
synthesized by the Orchestrator, never by a Workflow — is emitted exactly
once, always as the last event of the stream. -/
theorem c7_event_stream_progress_and_done (wf : List WfEvent) (final : ExecStatus)
    (tok : Nat) (mcp : List (String × Nat)) :
    List.Chain' (· ≤ ·) (percents (orchestratorRun wf final tok mcp))
    ∧ (orchestratorRun wf final tok mcp).countP isDone = 1
    ∧ (orchestratorRun wf final tok mcp).getLast? = some (Event.done final tok mcp) := by
  refine ⟨?_, ?_, ?_⟩
  · rw [orchestratorRun, percents_append]
    simpa [percents] using percents_relay_chain wf 0
  · rw [orchestratorRun, List.countP_append]
    have hz : (relayEvents 0 wf).countP isDone = 0 :=
      List.countP_eq_zero.mpr (by
        intro ev hev
        simp [relay_no_done wf 0 ev hev])
    simp [hz, isDone]
  · rw [orchestratorRun]
    simp

/-- Witness for C7 at a concrete workflow event sequence. -/
theorem c7_event_stream_witness :
    List.Chain' (· ≤ ·) (percents (orchestratorRun
        [WfEvent.progress "retrieving" 10, WfEvent.log "info" "Retrieved 3 context chunks",
         WfEvent.progress "generating_code" 30, WfEvent.result (JVal.obj [])]
        ExecStatus.completed 128 [("github", 1)]))
    ∧ (orchestratorRun
        [WfEvent.progress "retrieving" 10, WfEvent.log "info" "Retrieved 3 context chunks",
         WfEvent.progress "generating_code" 30, WfEvent.result (JVal.obj [])]
        ExecStatus.completed 128 [("github", 1)]).countP isDone = 1
    ∧ (orchestratorRun
        [WfEvent.progress "retrieving" 10, WfEvent.log "info" "Retrieved 3 context chunks",
         WfEvent.progress "generating_code" 30, WfEvent.result (JVal.obj [])]
        ExecStatus.completed 128 [("github", 1)]).getLast?
      = some (Event.done ExecStatus.completed 128 [("github", 1)]) :=
  c7_event_stream_progress_and_done
    [WfEvent.progress "retrieving" 10, WfEvent.log "info" "Retrieved 3 context chunks",
     WfEvent.progress "generating_code" 30, WfEvent.result (JVal.obj [])]
    ExecStatus.completed 128 [("github", 1)]
